import Mathlib

/-!
Shallow embedding of two WebRTC components and proofs about them:

- `video/frame_cadence_adapter.cc`: `FrameCadenceAdapterImpl` — frame
  ingestion bookkeeping (`frames_scheduled_for_processing_`), zero-hertz
  session state, and the one-shot frame-rate-constraint UMA telemetry.
- `audio/audio_state.cc`: `AudioState` — sending-stream aggregation,
  playout state with the null audio poller, and reference counting.

External effects (histogram recordings, `AudioTransport` and `VoEBase`
calls, poller construction/destruction) are modelled as event traces.
-/

/-- The source's frame-rate constraints: optional `min_fps` and `max_fps`,
independently nullable and unvalidated. -/
structure VideoTrackSourceConstraints where
  min_fps : Option Int
  max_fps : Option Int
deriving DecidableEq

/-- Histogram keys used by `MaybeReportFrameRateConstraintUmas`, one per
`WebRTC.Screenshare.FrameRateConstraints.*` histogram name. -/
inductive UmaKey where
  | constraintsExists
  | minExists
  | minValue
  | maxExists
  | maxValue
  | minUnsetMax
  | minLessThanMaxMin
  | minLessThanMaxMax
  | sixtyMinPlusMaxMinusOne
deriving DecidableEq

/-- One recorded metrics observation (RTC_HISTOGRAM_* macro invocation). -/
inductive UmaObs where
  | histBool (key : UmaKey) (value : Bool)
  | histCount100 (key : UmaKey) (value : Int)
  | histEnumSparse (key : UmaKey) (sample : Int) (boundary : Int)
deriving DecidableEq

/-- The `kMaxBucketCount` constant: `60 * 60 + 60 - 1`. -/
def kMaxBucketCount : Int := 60 * 60 + 60 - 1

/-- The histogram emissions of `MaybeReportFrameRateConstraintUmas` after
its two early-return guards have passed, as a function of the stored
`source_constraints_`. Mirrors the source's control flow statement by
statement. -/
def reportConstraintUmas (source_constraints : Option VideoTrackSourceConstraints) :
    List UmaObs :=
  UmaObs.histBool UmaKey.constraintsExists source_constraints.isSome ::
    match source_constraints with
    | none => []
    | some sc =>
      (UmaObs.histBool UmaKey.minExists sc.min_fps.isSome ::
        (match sc.min_fps with
         | some m => [UmaObs.histCount100 UmaKey.minValue m]
         | none => [])) ++
      (UmaObs.histBool UmaKey.maxExists sc.max_fps.isSome ::
        (match sc.max_fps with
         | some m => [UmaObs.histCount100 UmaKey.maxValue m]
         | none => [])) ++
      (match sc.min_fps, sc.max_fps with
       | none, some m => [UmaObs.histCount100 UmaKey.minUnsetMax m]
       | none, none => []
       | some _, none => []
       | some mn, some mx =>
         (if mn < mx then
            [UmaObs.histCount100 UmaKey.minLessThanMaxMin mn,
             UmaObs.histCount100 UmaKey.minLessThanMaxMax mx]
          else []) ++
         [UmaObs.histEnumSparse UmaKey.sixtyMinPlusMaxMinusOne
            (mn * 60 + mx - 1) kMaxBucketCount])

/-- The owner-thread state of `FrameCadenceAdapterImpl` relevant to
telemetry: `source_constraints_`, `zero_hertz_and_uma_reporting_enabled_`
and `has_reported_screenshare_frame_rate_umas_`. -/
structure FrameCadenceAdapterState where
  source_constraints : Option VideoTrackSourceConstraints
  zero_hertz_and_uma_reporting_enabled : Bool
  has_reported_screenshare_frame_rate_umas : Bool
deriving DecidableEq

/-- `FrameCadenceAdapterImpl::MaybeReportFrameRateConstraintUmas`: returns
the updated state and the list of observations recorded by this call. The
source returns early if the UMAs were already reported, then sets the
reported flag, then returns early if zero-hertz mode is disabled. -/
def MaybeReportFrameRateConstraintUmas (s : FrameCadenceAdapterState) :
    FrameCadenceAdapterState × List UmaObs :=
  if s.has_reported_screenshare_frame_rate_umas then (s, [])
  else
    let s1 := { s with has_reported_screenshare_frame_rate_umas := true }
    if s1.zero_hertz_and_uma_reporting_enabled then
      (s1, reportConstraintUmas s1.source_constraints)
    else (s1, [])

/-- `FrameCadenceAdapterImpl::SetZeroHertzModeEnabled`: a false-to-true
transition clears the reported flag; the enabled flag is then stored. -/
def SetZeroHertzModeEnabled (s : FrameCadenceAdapterState) (enabled : Bool) :
    FrameCadenceAdapterState :=
  let s1 :=
    if enabled && !s.zero_hertz_and_uma_reporting_enabled then
      { s with has_reported_screenshare_frame_rate_umas := false }
    else s
  { s1 with zero_hertz_and_uma_reporting_enabled := enabled }

/-- Whether an observation is the joint (multi-dimensional) bucketed one. -/
def isJointObs : UmaObs → Bool
  | UmaObs.histEnumSparse _ _ _ => true
  | _ => false

/-- Whether a recorded list contains the joint bucketed observation. -/
def hasJointObs (l : List UmaObs) : Bool := l.any isJointObs

/-- C1 counterexample: with zero-hertz enabled and nothing reported yet,
inverted constraints (min_fps = 30, max_fps = 10) DO produce the joint
bucketed observation — the sparse-enumeration histogram sits outside the
`min < max` branch and fires whenever both fields are present, refuting
the claim that it is not recorded when the constraints are inverted. -/
theorem uma_joint_recorded_for_inverted_constraints_cex :
    hasJointObs (MaybeReportFrameRateConstraintUmas
      ⟨some ⟨some 30, some 10⟩, true, false⟩).2 = true := by decide

/-- C1 (amended): with both constraint fields present, the telemetry
records the joint bucketed observation `min_fps * 60 + max_fps - 1`
regardless of whether `min_fps < max_fps` (for min = 10, max = 30 the
value is 629; for the inverted min = 30, max = 10 the joint observation
IS recorded, with value 1809, alongside the plain min-value 30 and
max-value 10 observations); in general the joint observation is emitted
exactly when both fields are present. Only the `MinLessThanMax` count
observations require `min_fps < max_fps`. -/
theorem uma_joint_emitted_iff_both_present :
    (∀ m mx : Int,
      UmaObs.histEnumSparse UmaKey.sixtyMinPlusMaxMinusOne (m * 60 + mx - 1) kMaxBucketCount ∈
        (MaybeReportFrameRateConstraintUmas ⟨some ⟨some m, some mx⟩, true, false⟩).2 ∧
      UmaObs.histCount100 UmaKey.minValue m ∈
        (MaybeReportFrameRateConstraintUmas ⟨some ⟨some m, some mx⟩, true, false⟩).2 ∧
      UmaObs.histCount100 UmaKey.maxValue mx ∈
        (MaybeReportFrameRateConstraintUmas ⟨some ⟨some m, some mx⟩, true, false⟩).2) ∧
    (∀ c : Option VideoTrackSourceConstraints,
      hasJointObs (MaybeReportFrameRateConstraintUmas ⟨c, true, false⟩).2 =
        c.elim false (fun sc => sc.min_fps.isSome && sc.max_fps.isSome)) ∧
    (MaybeReportFrameRateConstraintUmas ⟨some ⟨some 10, some 30⟩, true, false⟩).2.contains
      (UmaObs.histEnumSparse UmaKey.sixtyMinPlusMaxMinusOne 629 kMaxBucketCount) = true ∧
    (MaybeReportFrameRateConstraintUmas ⟨some ⟨some 30, some 10⟩, true, false⟩).2.contains
      (UmaObs.histEnumSparse UmaKey.sixtyMinPlusMaxMinusOne 1809 kMaxBucketCount) = true ∧
    (MaybeReportFrameRateConstraintUmas ⟨some ⟨some 30, some 10⟩, true, false⟩).2.contains
      (UmaObs.histCount100 UmaKey.minValue 30) = true ∧
    (MaybeReportFrameRateConstraintUmas ⟨some ⟨some 30, some 10⟩, true, false⟩).2.contains
      (UmaObs.histCount100 UmaKey.maxValue 10) = true := by
  refine ⟨?_, ?_, by decide, by decide, by decide, by decide⟩
  · intro m mx
    by_cases h : m < mx <;>
      simp [MaybeReportFrameRateConstraintUmas, reportConstraintUmas, h]
  · intro c
    rcases c with _ | ⟨mn, mx⟩
    · decide
    · rcases mn with _ | m <;> rcases mx with _ | mx <;>
        simp [MaybeReportFrameRateConstraintUmas, reportConstraintUmas,
          hasJointObs, isJointObs]

/-- Deliver `n` frames on the owner thread: each delivery runs the one-shot
telemetry check, as the posted task in `OnFrame` does after the callback.
Returns the final state and the per-delivery emission lists. -/
def deliverN : FrameCadenceAdapterState → Nat → FrameCadenceAdapterState × List (List UmaObs)
  | s, 0 => (s, [])
  | s, n + 1 =>
    let r := MaybeReportFrameRateConstraintUmas s
    let rest := deliverN r.1 n
    (rest.1, r.2 :: rest.2)

/-- Number of deliveries whose telemetry check emitted at least one
observation. -/
def countEmitting (l : List (List UmaObs)) : Nat :=
  (l.filter (fun e => !e.isEmpty)).length

theorem maybeReport_of_reported (s : FrameCadenceAdapterState)
    (h : s.has_reported_screenshare_frame_rate_umas = true) :
    MaybeReportFrameRateConstraintUmas s = (s, []) := by
  simp [MaybeReportFrameRateConstraintUmas, h]

theorem deliverN_of_reported (s : FrameCadenceAdapterState)
    (h : s.has_reported_screenshare_frame_rate_umas = true) :
    ∀ n, deliverN s n = (s, List.replicate n []) := by
  intro n
  induction n with
  | zero => simp [deliverN]
  | succ m ih => simp [deliverN, maybeReport_of_reported s h, ih, List.replicate_succ]

theorem reportConstraintUmas_ne_nil (c : Option VideoTrackSourceConstraints) :
    reportConstraintUmas c ≠ [] := by
  simp [reportConstraintUmas]

theorem countEmitting_replicate_nil (n : Nat) :
    countEmitting (List.replicate n []) = 0 := by
  induction n with
  | zero => rfl
  | succ m ih => simp [countEmitting, List.replicate_succ]

/-- A fresh enabled session emits exactly once over any positive number of
deliveries, and ends with the reported flag set and the rest of the state
unchanged. -/
theorem session_emits_once (s : FrameCadenceAdapterState)
    (hr : s.has_reported_screenshare_frame_rate_umas = false)
    (he : s.zero_hertz_and_uma_reporting_enabled = true)
    (n : Nat) (hn : 1 ≤ n) :
    countEmitting (deliverN s n).2 = 1 ∧
    (deliverN s n).1 = { s with has_reported_screenshare_frame_rate_umas := true } := by
  obtain ⟨m, rfl⟩ : ∃ m, n = m + 1 := ⟨n - 1, by omega⟩
  have hfirst : MaybeReportFrameRateConstraintUmas s =
      ({ s with has_reported_screenshare_frame_rate_umas := true },
        reportConstraintUmas s.source_constraints) := by
    simp [MaybeReportFrameRateConstraintUmas, hr, he]
  have hrest := deliverN_of_reported
    { s with has_reported_screenshare_frame_rate_umas := true } rfl m
  constructor
  · simp [deliverN, hfirst, hrest, countEmitting, countEmitting_replicate_nil,
      List.filter_replicate, reportConstraintUmas_ne_nil s.source_constraints]
  · simp [deliverN, hfirst, hrest]

/-- C3: telemetry fires at most once per session. After a false-to-true
`SetZeroHertzModeEnabled` transition, delivering N ≥ 1 frames records
exactly one emitting set of observations regardless of N; toggling
zero-hertz mode off and then on again allows exactly one more over M ≥ 1
further deliveries; and calling `SetZeroHertzModeEnabled` with the flag's
current value (true-to-true or false-to-false) leaves the state, in
particular the already-sent mark, unchanged. -/
theorem telemetry_once_per_session (s : FrameCadenceAdapterState)
    (h : s.zero_hertz_and_uma_reporting_enabled = false)
    (N M : Nat) (hN : 1 ≤ N) (hM : 1 ≤ M) :
    countEmitting (deliverN (SetZeroHertzModeEnabled s true) N).2 = 1 ∧
    countEmitting (deliverN (SetZeroHertzModeEnabled (SetZeroHertzModeEnabled
      (deliverN (SetZeroHertzModeEnabled s true) N).1 false) true) M).2 = 1 ∧
    (∀ t : FrameCadenceAdapterState,
      SetZeroHertzModeEnabled t t.zero_hertz_and_uma_reporting_enabled = t) := by
  have h1 := session_emits_once (SetZeroHertzModeEnabled s true)
    (by simp [SetZeroHertzModeEnabled, h]) (by simp [SetZeroHertzModeEnabled]) N hN
  have h2 := session_emits_once (SetZeroHertzModeEnabled (SetZeroHertzModeEnabled
      (deliverN (SetZeroHertzModeEnabled s true) N).1 false) true)
    (by simp [SetZeroHertzModeEnabled]) (by simp [SetZeroHertzModeEnabled]) M hM
  refine ⟨h1.1, h2.1, fun t => ?_⟩
  rcases t with ⟨c, e, r⟩
  cases e <;> simp [SetZeroHertzModeEnabled]

/-- C3 witness: a concrete run of `telemetry_once_per_session`. -/
theorem telemetry_once_per_session_witness :
    countEmitting (deliverN (SetZeroHertzModeEnabled ⟨none, false, false⟩ true) 2).2 = 1 :=
  (telemetry_once_per_session ⟨none, false, false⟩ rfl 2 3 (by decide) (by decide)).1

/-- C4 counterexample: when the telemetry check runs with zero-hertz mode
disabled and the mark not yet set, the mark IS changed — the source sets
`has_reported_screenshare_frame_rate_umas_ = true` before testing the
enabled flag, refuting the claim that the state is left unchanged. -/
theorem telemetry_mark_set_when_disabled_cex :
    (MaybeReportFrameRateConstraintUmas
        ⟨none, false, false⟩).1.has_reported_screenshare_frame_rate_umas ≠
      (⟨none, false, false⟩ :
        FrameCadenceAdapterState).has_reported_screenshare_frame_rate_umas := by
  decide

/-- C4 (amended): when the one-shot telemetry check runs while zero-hertz
mode is disabled, no observation is emitted, but the telemetry-sent mark
is set to true (it is set whenever the check passes the already-sent
guard, before the enabled test); the rest of the state is unchanged. -/
theorem telemetry_skip_when_disabled_marks_sent (s : FrameCadenceAdapterState)
    (h : s.zero_hertz_and_uma_reporting_enabled = false) :
    MaybeReportFrameRateConstraintUmas s =
      ({ s with has_reported_screenshare_frame_rate_umas := true }, []) := by
  rcases s with ⟨c, e, r⟩
  simp only at h
  subst h
  cases r <;> simp [MaybeReportFrameRateConstraintUmas]

/-- C4 witness: the amended statement at a concrete disabled state. -/
theorem telemetry_skip_when_disabled_marks_sent_witness :
    MaybeReportFrameRateConstraintUmas ⟨none, false, false⟩ =
      (⟨none, false, true⟩, []) :=
  telemetry_skip_when_disabled_marks_sent ⟨none, false, false⟩ rfl

/-- State of the `OnFrame` thread hop: the atomic
`frames_scheduled_for_processing_` counter, the number of posted tasks the
owner thread has not yet run, and the pending-count values delivered to the
callback so far, in delivery order. -/
structure CadenceState where
  frames_scheduled_for_processing : Int
  pending_tasks : Nat
  deliveries : List Int
deriving DecidableEq

/-- The adapter state right after construction: counter 0, nothing posted. -/
def initCadence : CadenceState := ⟨0, 0, []⟩

/-- The foreign-thread part of `FrameCadenceAdapterImpl::OnFrame`:
`fetch_add(1)` on the counter and one task posted to the owner queue. -/
def onFrame (s : CadenceState) : CadenceState :=
  { s with
    frames_scheduled_for_processing := s.frames_scheduled_for_processing + 1,
    pending_tasks := s.pending_tasks + 1 }

/-- The owner thread runs the oldest posted task, if any: `fetch_sub(1)`
returns the counter value before the decrement, and that value is the
`frames_scheduled_for_processing` argument delivered to the callback. -/
def runOneTask (s : CadenceState) : CadenceState :=
  match s.pending_tasks with
  | 0 => s
  | n + 1 =>
    { frames_scheduled_for_processing := s.frames_scheduled_for_processing - 1,
      pending_tasks := n,
      deliveries := s.deliveries ++ [s.frames_scheduled_for_processing] }

theorem onFrame_iterate (N : Nat) :
    onFrame^[N] initCadence = ⟨(N : Int), N, []⟩ := by
  induction N with
  | zero => rfl
  | succ n ih =>
    rw [Function.iterate_succ_apply', ih]
    simp [onFrame]

theorem runOneTask_iterate (N : Nat) :
    ∀ j, j ≤ N →
      runOneTask^[j] (⟨(N : Int), N, []⟩ : CadenceState) =
        ⟨((N - j : Nat) : Int), N - j,
          (List.range j).map (fun i => (N : Int) - (i : Nat))⟩ := by
  intro j
  induction j with
  | zero => simp
  | succ m ih =>
    intro h
    have hm : m ≤ N := Nat.le_of_succ_le h
    rw [Function.iterate_succ_apply', ih hm]
    have hpos : N - m = (N - (m + 1)) + 1 := by omega
    rw [hpos]
    simp only [runOneTask]
    have h1 : ((N - (m + 1) + 1 : Nat) : Int) - 1 = ((N - (m + 1) : Nat) : Int) := by
      omega
    have h2 : ((N - (m + 1) + 1 : Nat) : Int) = (N : Int) - (m : Int) := by
      omega
    rw [h1, h2, List.range_succ, List.map_append]
    simp

/-- C2: after N `OnFrame` calls on the foreign thread and before the owner
thread runs anything, the pending count delivered with the k-th task
(1 ≤ k ≤ N) is N - (k - 1); every delivered count in that run is
non-negative and never exceeds N, the number of calls issued. -/
theorem pending_count_at_kth_delivery (N k : Nat) (hk : 1 ≤ k) (hkN : k ≤ N) :
    (runOneTask^[k] (onFrame^[N] initCadence)).deliveries.get? (k - 1) =
      some ((N : Int) - ((k : Int) - 1)) ∧
    (∀ x ∈ (runOneTask^[k] (onFrame^[N] initCadence)).deliveries,
      0 ≤ x ∧ x ≤ (N : Int)) := by
  rw [onFrame_iterate, runOneTask_iterate N k hkN]
  constructor
  · simp only []
    rw [List.get?_map]
    have hlt : k - 1 < k := by omega
    rw [List.get?_range hlt]
    simp
    omega
  · intro x hx
    simp only [List.mem_map, List.mem_range] at hx
    obtain ⟨i, hi, rfl⟩ := hx
    constructor <;> omega

/-- C2 witness: with N = 3 posted frames, the 2nd delivery carries count 2
and all delivered counts lie in [0, 3]. -/
theorem pending_count_at_kth_delivery_witness :
    (runOneTask^[2] (onFrame^[3] initCadence)).deliveries.get? 1 =
      some ((3 : Int) - ((2 : Int) - 1)) :=
  (pending_count_at_kth_delivery 3 2 (by decide) (by decide)).1

/-- An interleaving step: a foreign-thread `OnFrame` or the owner thread
running one posted task. -/
inductive CadenceOp where
  | frame
  | runTask
deriving DecidableEq

def stepCadence (s : CadenceState) : CadenceOp → CadenceState
  | CadenceOp.frame => onFrame s
  | CadenceOp.runTask => runOneTask s

/-- Run a sequence of interleaved operations from the initial state. -/
def execCadence (ops : List CadenceOp) : CadenceState :=
  ops.foldl stepCadence initCadence

/-- The invariant tying the atomic counter to the queue length and bounding
all delivered counts from below. -/
def CadenceInv (s : CadenceState) : Prop :=
  s.frames_scheduled_for_processing = (s.pending_tasks : Int) ∧
    ∀ x ∈ s.deliveries, 1 ≤ x

theorem stepCadence_inv (s : CadenceState) (op : CadenceOp)
    (h : CadenceInv s) : CadenceInv (stepCadence s op) := by
  obtain ⟨hc, hd⟩ := h
  cases op with
  | frame =>
    refine ⟨?_, ?_⟩
    · simp [stepCadence, onFrame, hc]
    · simpa [stepCadence, onFrame] using hd
  | runTask =>
    rcases hp : s.pending_tasks with _ | n
    · have hstep : stepCadence s CadenceOp.runTask = s := by
        simp [stepCadence, runOneTask, hp]
      rw [hstep]
      exact ⟨hc, hd⟩
    · have hstep : stepCadence s CadenceOp.runTask =
        { frames_scheduled_for_processing := s.frames_scheduled_for_processing - 1,
          pending_tasks := n,
          deliveries := s.deliveries ++ [s.frames_scheduled_for_processing] } := by
        simp [stepCadence, runOneTask, hp]
      rw [hstep]
      refine ⟨?_, ?_⟩
      · show s.frames_scheduled_for_processing - 1 = (n : Int)
        rw [hc, hp]
        omega
      · intro x hx
        rcases List.mem_append.mp hx with h1 | h2
        · exact hd x h1
        · have hx2 : x = s.frames_scheduled_for_processing := by
            simpa using h2
          rw [hx2, hc, hp]
          omega

theorem foldl_cadence_inv (ops : List CadenceOp) :
    ∀ s, CadenceInv s → CadenceInv (ops.foldl stepCadence s) := by
  induction ops with
  | nil => intro s h; simpa using h
  | cons op rest ih =>
    intro s h
    simpa using ih (stepCadence s op) (stepCadence_inv s op h)

/-- C9: in every interleaving of foreign-thread `OnFrame` calls and
owner-thread task runs, each pending count delivered to the callback is at
least 1 — `OnFrame` increments the counter before posting and the task
reads the counter before its own decrement, so the frame being delivered
is always included. -/
theorem delivered_inflight_count_positive (ops : List CadenceOp) :
    ∀ x ∈ (execCadence ops).deliveries, 1 ≤ x :=
  (foldl_cadence_inv ops initCadence ⟨rfl, by simp [initCadence]⟩).2

/-- C9 witness: posting one frame and running its task delivers count 1. -/
theorem delivered_inflight_count_positive_witness :
    (1 : Int) ∈ (execCadence [CadenceOp.frame, CadenceOp.runTask]).deliveries ∧
      (1 : Int) ≤ 1 :=
  ⟨by decide, delivered_inflight_count_positive
    [CadenceOp.frame, CadenceOp.runTask] 1 (by decide)⟩

/-- Per-stream parameters stored in `sending_streams_`. -/
structure StreamProperties where
  sample_rate_hz : Int
  num_channels : Nat
deriving DecidableEq

/-- An externally observable effect of an `AudioState` operation: a push to
the audio transport, a `VoEBase` playout/recording call, or construction or
destruction of the null audio poller. -/
inductive AudioEvent where
  | updateSendingStreams (ids : List Nat) (max_sample_rate_hz : Int)
      (max_num_channels : Nat)
  | voeSetPlayout (enabled : Bool)
  | voeSetRecording (enabled : Bool)
  | pollerConstructed
  | pollerDestroyed
deriving DecidableEq

/-- The mutable state of `webrtc::internal::AudioState`: the ordered map
`sending_streams_` (association list sorted strictly by stream key, as
`std::map` iterates) and whether `null_audio_poller_` holds an instance. -/
structure AudioState where
  sending_streams : List (Nat × StreamProperties)
  null_audio_poller : Bool
deriving DecidableEq

/-- Ordered-map upsert, the effect of `sending_streams_[stream]` followed by
the two field assignments in `AddSendingStream`. -/
def insertSorted (k : Nat) (v : StreamProperties) :
    List (Nat × StreamProperties) → List (Nat × StreamProperties)
  | [] => [(k, v)]
  | (k1, v1) :: rest =>
    if k < k1 then (k, v) :: (k1, v1) :: rest
    else if k = k1 then (k, v) :: rest
    else (k1, v1) :: insertSorted k v rest

/-- Number of entries carrying key `k`: what `sending_streams_.erase(stream)`
returns (0 or 1 on a map with unique keys). -/
def countKey (k : Nat) (l : List (Nat × StreamProperties)) : Nat :=
  (l.filter (fun kv => kv.1 == k)).length

/-- `AudioState::UpdateAudioTransportWithSendingStreams`: recompute, from
the full current map, the active-id list and the maxima of sample rate and
channel count over all entries, starting from the floors 8000 Hz and 1
channel, and push them to the transport. -/
def UpdateAudioTransportWithSendingStreams (s : AudioState) : AudioEvent :=
  AudioEvent.updateSendingStreams
    (s.sending_streams.map Prod.fst)
    (s.sending_streams.foldl (fun acc kv => max acc kv.2.sample_rate_hz) 8000)
    (s.sending_streams.foldl (fun acc kv => max acc kv.2.num_channels) 1)

/-- `AudioState::AddSendingStream`: upsert the stream's properties, then
recompute and push the aggregate. Returns the new state and the events. -/
def AddSendingStream (s : AudioState) (stream : Nat) (sample_rate_hz : Int)
    (num_channels : Nat) : AudioState × List AudioEvent :=
  let s1 := { s with
    sending_streams :=
      insertSorted stream ⟨sample_rate_hz, num_channels⟩ s.sending_streams }
  (s1, [UpdateAudioTransportWithSendingStreams s1])

/-- `AudioState::RemoveSendingStream`: erase the stream; the source then
asserts `RTC_DCHECK_EQ(1, count)` — modelled as `none` when the assertion
fires — and recomputes and pushes the aggregate. -/
def RemoveSendingStream (s : AudioState) (stream : Nat) :
    Option (AudioState × List AudioEvent) :=
  let count := countKey stream s.sending_streams
  let s1 := { s with
    sending_streams := s.sending_streams.filter (fun kv => !(kv.1 == stream)) }
  if count = 1 then some (s1, [UpdateAudioTransportWithSendingStreams s1])
  else none

/-- `AudioState::SetPlayout`: the current playout state is "enabled" when
no null poller is present; equal requested state returns early; enabling
destroys the poller and then calls `voe_base_->SetPlayout(true)`; disabling
calls `voe_base_->SetPlayout(false)` and then constructs the poller. -/
def SetPlayout (s : AudioState) (enabled : Bool) : AudioState × List AudioEvent :=
  let currently_enabled := !s.null_audio_poller
  if enabled = currently_enabled then (s, [])
  else if enabled then
    ({ s with null_audio_poller := false },
      [AudioEvent.pollerDestroyed, AudioEvent.voeSetPlayout true])
  else
    ({ s with null_audio_poller := true },
      [AudioEvent.voeSetPlayout false, AudioEvent.pollerConstructed])

/-- Result of `AudioState::Release`, from `rtc::RefCountReleaseStatus`. -/
inductive RefCountReleaseStatus where
  | kDroppedLastRef
  | kOtherRefsRemained
deriving DecidableEq

/-- `AudioState::Release`: `rtc::AtomicOps::Decrement` returns the value
after the decrement; when it reaches 0 the object deletes itself and
reports the last reference dropped. Returns (count after decrement,
status, whether the object was destroyed). -/
def Release (ref_count : Int) : Int × RefCountReleaseStatus × Bool :=
  let after := ref_count - 1
  if after = 0 then (after, RefCountReleaseStatus.kDroppedLastRef, true)
  else (after, RefCountReleaseStatus.kOtherRefsRemained, false)

def countVoePlayoutCalls (l : List AudioEvent) : Nat :=
  (l.filter (fun e =>
    match e with
    | AudioEvent.voeSetPlayout _ => true
    | _ => false)).length

def countPollerConstructions (l : List AudioEvent) : Nat :=
  (l.filter (fun e =>
    match e with
    | AudioEvent.pollerConstructed => true
    | _ => false)).length

/-- C5: the aggregate pushed to the transport is recomputed in full from
the current stream map after every insert/remove, maxima with floors
8000 Hz and 1 channel: adding stream 1 at (16000, 1), then stream 2 at
(48000, 2), then removing stream 1 pushes aggregate (48000, 2, [2]); an
empty map yields the floor aggregate (8000, 1, []); and the events of an
add are exactly the recomputation over the post-insert map. -/
theorem aggregate_recompute_example :
    (AddSendingStream (AddSendingStream ⟨[], false⟩ 1 16000 1).1 2 48000 2).2 =
      [AudioEvent.updateSendingStreams [1, 2] 48000 2] ∧
    RemoveSendingStream
        (AddSendingStream (AddSendingStream ⟨[], false⟩ 1 16000 1).1 2 48000 2).1 1 =
      some (⟨[(2, ⟨48000, 2⟩)], false⟩,
        [AudioEvent.updateSendingStreams [2] 48000 2]) ∧
    UpdateAudioTransportWithSendingStreams ⟨[], false⟩ =
      AudioEvent.updateSendingStreams [] 8000 1 ∧
    (∀ (s : AudioState) (id : Nat) (rate : Int) (ch : Nat),
      (AddSendingStream s id rate ch).2 =
        [UpdateAudioTransportWithSendingStreams (AddSendingStream s id rate ch).1]) := by
  exact ⟨by decide, by decide, by decide, fun s id rate ch => rfl⟩

/-- C6: `SetPlayout` is a no-op when the requested state equals the current
one; from the enabled state (no poller), two consecutive `SetPlayout false`
calls make exactly one transport playout call and construct exactly one
poller, in the order transport-then-poller; and an effective enable
destroys the poller before the transport call. -/
theorem setPlayout_idempotent_and_ordered :
    (∀ (s : AudioState) (e : Bool), e = !s.null_audio_poller →
      SetPlayout s e = (s, [])) ∧
    (∀ s : AudioState, s.null_audio_poller = false →
      countVoePlayoutCalls
        ((SetPlayout s false).2 ++ (SetPlayout (SetPlayout s false).1 false).2) = 1 ∧
      countPollerConstructions
        ((SetPlayout s false).2 ++ (SetPlayout (SetPlayout s false).1 false).2) = 1 ∧
      (SetPlayout s false).2 =
        [AudioEvent.voeSetPlayout false, AudioEvent.pollerConstructed] ∧
      (SetPlayout (SetPlayout s false).1 false).2 = []) ∧
    (∀ s : AudioState, s.null_audio_poller = true →
      (SetPlayout s true).2 =
        [AudioEvent.pollerDestroyed, AudioEvent.voeSetPlayout true]) := by
  refine ⟨?_, ?_, ?_⟩
  · intro s e he
    simp [SetPlayout, he]
  · intro s h
    have h1 : SetPlayout s false = ({ s with null_audio_poller := true },
        [AudioEvent.voeSetPlayout false, AudioEvent.pollerConstructed]) := by
      simp [SetPlayout, h]
    have h2 : SetPlayout { s with null_audio_poller := true } false =
        ({ s with null_audio_poller := true }, []) := by
      simp [SetPlayout]
    rw [h1]
    rw [h2]
    refine ⟨rfl, rfl, rfl, rfl⟩
  · intro s h
    simp [SetPlayout, h]

/-- C6 witness: the two-call trace from a concrete enabled state. -/
theorem setPlayout_idempotent_and_ordered_witness :
    (SetPlayout ⟨[], false⟩ false).2 =
      [AudioEvent.voeSetPlayout false, AudioEvent.pollerConstructed] :=
  (setPlayout_idempotent_and_ordered.2.1 ⟨[], false⟩ rfl).2.2.1

/-- C7: `Release` decrements the reference count and reports whether this
decrement dropped the last reference: from count 1 it reports the last
reference dropped and destroys the object; from count 2 other references
remain and the object survives; in general destruction happens exactly
when the decrement reaches zero. -/
theorem release_refcount_semantics :
    Release 1 = (0, RefCountReleaseStatus.kDroppedLastRef, true) ∧
    Release 2 = (1, RefCountReleaseStatus.kOtherRefsRemained, false) ∧
    (∀ n : Int, ((Release n).2.2 = true ↔ n - 1 = 0) ∧
      ((Release n).2.1 = RefCountReleaseStatus.kDroppedLastRef ↔ n - 1 = 0) ∧
      (Release n).1 = n - 1) := by
  refine ⟨by decide, by decide, fun n => ?_⟩
  by_cases h : n - 1 = 0 <;> simp [Release, h]

theorem countKey_eq_zero (id : Nat) (l : List (Nat × StreamProperties))
    (h : id ∉ l.map Prod.fst) : countKey id l = 0 := by
  induction l with
  | nil => rfl
  | cons kv rest ih =>
    simp only [List.map_cons, List.mem_cons, not_or] at h
    have h1 : (kv.1 == id) = false := by
      simp only [beq_eq_false_iff_ne, ne_eq]
      exact fun he => h.1 he.symm
    have h2 : countKey id rest = 0 := ih h.2
    have h3 : countKey id (kv :: rest) = countKey id rest := by
      simp [countKey, List.filter_cons, h1]
    rw [h3, h2]

theorem countKey_eq_one (id : Nat) (l : List (Nat × StreamProperties))
    (hnd : (l.map Prod.fst).Nodup) (hmem : id ∈ l.map Prod.fst) :
    countKey id l = 1 := by
  induction l with
  | nil => simp at hmem
  | cons kv rest ih =>
    simp only [List.map_cons, List.nodup_cons] at hnd
    obtain ⟨hk, hrest⟩ := hnd
    rw [List.map_cons] at hmem
    rcases List.mem_cons.mp hmem with h | h
    · have h1 : (kv.1 == id) = true := by simp [h.symm]
      have h2 : countKey id rest = 0 := countKey_eq_zero id rest (by rw [h]; exact hk)
      have h3 : countKey id (kv :: rest) = countKey id rest + 1 := by
        simp [countKey, List.filter_cons, h1]
      rw [h3, h2]
    · have hne : kv.1 ≠ id := fun he => hk (by rw [he]; exact h)
      have h1 : (kv.1 == id) = false := by simp [hne]
      have h2 := ih hrest h
      have h3 : countKey id (kv :: rest) = countKey id rest := by
        simp [countKey, List.filter_cons, h1]
      rw [h3, h2]

theorem filter_erase_length (id : Nat) (l : List (Nat × StreamProperties)) :
    (l.filter (fun kv => !(kv.1 == id))).length + countKey id l = l.length := by
  induction l with
  | nil => rfl
  | cons kv rest ih =>
    cases h : (kv.1 == id) <;>
      simp [countKey, List.filter_cons, h] at ih ⊢ <;> omega

/-- C8: `RemoveSendingStream` requires the stream to be present: on a map
with unique keys containing `id`, the erase count is exactly 1 (so the
`RTC_DCHECK_EQ(1, count)` assertion branch is unreachable), exactly one
entry is removed, the id is gone afterwards, and the recomputed aggregate
is pushed. -/
theorem removeSendingStream_requires_present (s : AudioState) (id : Nat)
    (hnd : (s.sending_streams.map Prod.fst).Nodup)
    (hmem : id ∈ s.sending_streams.map Prod.fst) :
    countKey id s.sending_streams = 1 ∧
    RemoveSendingStream s id =
      some ({ s with sending_streams :=
          s.sending_streams.filter (fun kv => !(kv.1 == id)) },
        [UpdateAudioTransportWithSendingStreams
          { s with sending_streams :=
            s.sending_streams.filter (fun kv => !(kv.1 == id)) }]) ∧
    (s.sending_streams.filter (fun kv => !(kv.1 == id))).length + 1 =
      s.sending_streams.length ∧
    id ∉ (s.sending_streams.filter (fun kv => !(kv.1 == id))).map Prod.fst := by
  have hcount := countKey_eq_one id s.sending_streams hnd hmem
  refine ⟨hcount, ?_, ?_, ?_⟩
  · simp [RemoveSendingStream, hcount]
  · have := filter_erase_length id s.sending_streams
    omega
  · intro hmem2
    simp only [List.mem_map, List.mem_filter] at hmem2
    obtain ⟨kv, ⟨_, hne⟩, hfst⟩ := hmem2
    simp [hfst] at hne

/-- C8 witness: removing the only stream of a concrete one-entry map. -/
theorem removeSendingStream_requires_present_witness :
    countKey 1 [(1, (⟨16000, 1⟩ : StreamProperties))] = 1 :=
  (removeSendingStream_requires_present ⟨[(1, ⟨16000, 1⟩)], false⟩ 1
    (by decide) (by decide)).1

theorem insertSorted_mem_eq (k : Nat) (v : StreamProperties) :
    ∀ l : List (Nat × StreamProperties),
      List.Pairwise (fun a b => a.1 < b.1) l → (k, v) ∈ l →
      insertSorted k v l = l := by
  intro l
  induction l with
  | nil => intro _ h; simp at h
  | cons kv rest ih =>
    intro hp hmem
    obtain ⟨hlt, hrest⟩ := List.pairwise_cons.mp hp
    rcases List.mem_cons.mp hmem with h | h
    · rcases kv with ⟨k1, v1⟩
      rw [Prod.mk.injEq] at h
      obtain ⟨rfl, rfl⟩ := h
      simp [insertSorted]
    · rcases kv with ⟨k1, v1⟩
      have hk : k1 < k := hlt (k, v) h
      have h1 : ¬ k < k1 := by omega
      have h2 : ¬ k = k1 := by omega
      simp [insertSorted, h1, h2, ih hrest h]

/-- C10: every `AddSendingStream` and every (assertion-passing)
`RemoveSendingStream` call pushes exactly one transport update; in
particular a redundant upsert of an existing id with identical parameters
leaves the stream map (and thus the aggregate) unchanged yet still pushes
the update — the push is never skipped or deduplicated. -/
theorem addRemove_always_pushes :
    (∀ (s : AudioState) (id : Nat) (rate : Int) (ch : Nat),
      (AddSendingStream s id rate ch).2.length = 1) ∧
    (∀ (s : AudioState) (id : Nat) (r : AudioState × List AudioEvent),
      RemoveSendingStream s id = some r → r.2.length = 1) ∧
    (∀ (s : AudioState) (id : Nat) (rate : Int) (ch : Nat),
      List.Pairwise (fun a b => a.1 < b.1) s.sending_streams →
      (id, (⟨rate, ch⟩ : StreamProperties)) ∈ s.sending_streams →
      AddSendingStream s id rate ch =
        (s, [UpdateAudioTransportWithSendingStreams s])) := by
  refine ⟨fun s id rate ch => rfl, ?_, ?_⟩
  · intro s id r h
    rw [RemoveSendingStream] at h
    split at h
    · obtain rfl := (Option.some.injEq _ _).mp h
      rfl
    · exact Option.noConfusion h
  · intro s id rate ch hp hmem
    have hins := insertSorted_mem_eq id ⟨rate, ch⟩ s.sending_streams hp hmem
    simp [AddSendingStream, hins]

/-- C10 witness: a redundant upsert on a concrete one-entry map still
pushes the (unchanged) aggregate. -/
theorem addRemove_always_pushes_witness :
    AddSendingStream ⟨[(1, ⟨16000, 1⟩)], false⟩ 1 16000 1 =
      (⟨[(1, ⟨16000, 1⟩)], false⟩,
        [UpdateAudioTransportWithSendingStreams ⟨[(1, ⟨16000, 1⟩)], false⟩]) :=
  addRemove_always_pushes.2.2 ⟨[(1, ⟨16000, 1⟩)], false⟩ 1 16000 1
    (by simp) (by simp)
